import Mathlib

/-!
Verification of the ode-islands cloud-transcoder orchestration and
memory-admission logic: a shallow embedding of `config.py`,
`memory_monitor.py` and the core of `transcode.py`.

The embedding keeps the source's data and control structure:

* `Profile` / `QUALITY_PROFILES` mirror the fixed ladder in `config.py`.
* `applicable_profiles` mirrors the list comprehension in
  `process_video` (`transcode.py` lines 281-284); the three band filters
  mirror lines 287-289.
* `MMState` / `check_thresholds` mirror `MemoryMonitor._check_thresholds`
  together with the three `TranscoderMemoryManager` callbacks registered on
  it (warning: log only; critical: `quality_reduced = True`; emergency:
  `emergency_mode = True`).  Memory percentages are rationals.
* `should_skip_variant` mirrors `TranscoderMemoryManager.should_skip_variant`.
* `process_video_core` mirrors the band-sequential result-collection loops
  of `process_video` (lines 294-371): per completed future it appends to
  `successful_profiles` or increments `failed_count`, then records the
  `update_processing_status(video_id, len(successful_profiles),
  len(applicable_profiles))` call.  The per-band completion order of
  `concurrent.futures.as_completed` is a parameter (a permutation of the
  band).  `jobOutcome` mirrors the aggregation at lines 373-376 together
  with the HTTP handler `process` (lines 405-424): zero successes raise
  (Failure), anything else returns success.
* `jobTrace` is the orchestrator's dispatch/completion event order implied
  by the sequential structure of `process_video`: a band's submissions all
  precede its completion handling, and a band's loop runs to completion
  before the next band is submitted.
* `futureResult`, `handleCompletedFuture` and `bandWaitTime` embed the wait
  structure at lines 314-325: `as_completed` (no timeout) yields a future
  only once it has completed, after which `future.result(timeout=600)` is
  evaluated with no remaining wait.
* `SemStep` / `SemReachable` embed the module-level
  `memory_semaphore = Semaphore(MAX_PARALLEL_JOBS)` protocol
  (`transcode.py` lines 19-24 and 88-91): every encode invocation runs
  inside `with memory_semaphore`.
-/

/-- One entry of `QUALITY_PROFILES` in `config.py`.  `profileTier` embeds the
`'profile'` key (the H.264 profile tier string). -/
structure Profile where
  name : String
  width : Nat
  height : Nat
  video_bitrate : String
  audio_bitrate : String
  maxrate : String
  bufsize : String
  profileTier : String
  level : String
  fps : Option Nat := none
deriving DecidableEq

def p144 : Profile :=
  ⟨"144p", 256, 144, "100k", "32k", "150k", "200k", "baseline", "3.0", none⟩

def p240 : Profile :=
  ⟨"240p", 426, 240, "300k", "48k", "450k", "600k", "baseline", "3.0", none⟩

def p360 : Profile :=
  ⟨"360p", 640, 360, "600k", "64k", "900k", "1200k", "baseline", "3.1", none⟩

def p480 : Profile :=
  ⟨"480p", 854, 480, "1000k", "96k", "1500k", "2000k", "main", "3.1", none⟩

def p540 : Profile :=
  ⟨"540p", 960, 540, "1500k", "96k", "2250k", "3000k", "main", "4.0", none⟩

def p720 : Profile :=
  ⟨"720p", 1280, 720, "2500k", "128k", "3750k", "5000k", "main", "4.0", none⟩

def p720_60 : Profile :=
  ⟨"720p60", 1280, 720, "3500k", "128k", "5250k", "7000k", "main", "4.0", some 60⟩

def p1080 : Profile :=
  ⟨"1080p", 1920, 1080, "5000k", "192k", "7500k", "10000k", "high", "4.0", none⟩

def p1080_60 : Profile :=
  ⟨"1080p60", 1920, 1080, "7500k", "192k", "11250k", "15000k", "high", "4.2", some 60⟩

def p1440 : Profile :=
  ⟨"1440p", 2560, 1440, "10000k", "256k", "15000k", "20000k", "high", "5.0", none⟩

def p2160 : Profile :=
  ⟨"2160p", 3840, 2160, "20000k", "256k", "30000k", "40000k", "high", "5.1", none⟩

/-- The fixed 11-profile ladder of `config.py`. -/
def QUALITY_PROFILES : List Profile :=
  [p144, p240, p360, p480, p540, p720, p720_60, p1080, p1080_60, p1440, p2160]

/-- `applicable_profiles` in `process_video` (`transcode.py` 281-284):
`[p for p in QUALITY_PROFILES if p['width'] <= width and p['height'] <= height]`. -/
def applicable_profiles (w h : Nat) : List Profile :=
  QUALITY_PROFILES.filter (fun p => decide (p.width ≤ w) && decide (p.height ≤ h))

/-- `critical_profiles` (`transcode.py` 287): height ≤ 480. -/
def critical_profiles (l : List Profile) : List Profile :=
  l.filter (fun p => decide (p.height ≤ 480))

/-- `standard_profiles` (`transcode.py` 288): 480 < height ≤ 1080. -/
def standard_profiles (l : List Profile) : List Profile :=
  l.filter (fun p => decide (480 < p.height) && decide (p.height ≤ 1080))

/-- `premium_profiles` (`transcode.py` 289): height > 1080. -/
def premium_profiles (l : List Profile) : List Profile :=
  l.filter (fun p => decide (1080 < p.height))

/-- `MemoryThresholds.warning_percent` (`memory_monitor.py` 27). -/
def warning_percent : ℚ := 70

/-- `MemoryThresholds.critical_percent` (`memory_monitor.py` 28). -/
def critical_percent : ℚ := 85

/-- `MemoryThresholds.emergency_percent` (`memory_monitor.py` 29). -/
def emergency_percent : ℚ := 95

/-- Which of the three registered callbacks fire on one sampling tick. -/
structure Fires where
  warning : Bool
  critical : Bool
  emergency : Bool
deriving DecidableEq

def noFires : Fires := ⟨false, false, false⟩

/-- The mutable flags of `MemoryMonitor` (`warning_triggered`,
`critical_triggered`) and of `TranscoderMemoryManager` (`quality_reduced`,
`emergency_mode`). -/
structure MMState where
  warningTriggered : Bool
  criticalTriggered : Bool
  qualityReduced : Bool
  emergencyMode : Bool
deriving DecidableEq

/-- The state at process start: all four flags are initialised to `False`. -/
def mmInit : MMState := ⟨false, false, false, false⟩

/-- One sampling tick: `MemoryMonitor._check_thresholds`
(`memory_monitor.py` 126-167) with the `TranscoderMemoryManager` callbacks
registered.  The emergency branch calls `_handle_emergency`
(`emergency_mode = True`) on every tick that reaches it; the critical branch
is edge-triggered through `critical_triggered` and calls `_handle_critical`
(`quality_reduced = True`); the warning branch is edge-triggered through
`warning_triggered` and only logs; the final branch re-arms both triggers. -/
def check_thresholds (s : MMState) (percent : ℚ) : MMState × Fires :=
  if emergency_percent ≤ percent then
    ({ s with emergencyMode := true }, ⟨false, false, true⟩)
  else if critical_percent ≤ percent then
    if s.criticalTriggered then (s, noFires)
    else ({ s with criticalTriggered := true, qualityReduced := true }, ⟨false, true, false⟩)
  else if warning_percent ≤ percent then
    if s.warningTriggered then (s, noFires)
    else ({ s with warningTriggered := true }, ⟨true, false, false⟩)
  else
    ({ s with warningTriggered := false, criticalTriggered := false }, noFires)

/-- The callbacks fired on each tick of a sampling trace. -/
def runMonitor (s : MMState) : List ℚ → List Fires
  | [] => []
  | p :: ps => (check_thresholds s p).2 :: runMonitor (check_thresholds s p).1 ps

/-- The state after a sampling trace. -/
def mmRun (s : MMState) (ps : List ℚ) : MMState :=
  ps.foldl (fun t p => (check_thresholds t p).1) s

/-- The `priority_group` argument of `should_skip_variant`: the code passes
the strings `'critical'`, `'standard'`, `'premium'`. -/
inductive PriorityGroup where
  | critical
  | standard
  | premium
deriving DecidableEq

/-- `TranscoderMemoryManager.should_skip_variant` (`memory_monitor.py`
271-288). -/
def should_skip_variant (s : MMState) (g : PriorityGroup) : Bool :=
  if s.emergencyMode then g != PriorityGroup.critical
  else if s.qualityReduced && (g == PriorityGroup.premium) then true
  else false

/-- What a completed encode future delivers to the collection loop:
`generate_variant` returned `True`, returned `False`, or the wait raised. -/
inductive EncodeOutcome where
  | ok
  | fail
  | exn
deriving DecidableEq

/-- The collection state of `process_video`: `successful_profiles`,
`failed_count`, and the `(completed, total)` arguments of each
`update_processing_status` call made so far. -/
structure RunState where
  successful : List Profile
  failedCount : Nat
  progress : List (Nat × Nat)
deriving DecidableEq

def initState : RunState := ⟨[], 0, []⟩

/-- Handling of one completed future (`transcode.py` 314-325 and the two
copies for the other bands): `future.result` truthy appends the profile to
`successful_profiles`, falsy or a raised exception increments
`failed_count`; afterwards `update_processing_status(video_id,
len(successful_profiles), len(applicable_profiles))` runs. -/
def processFuture (res : Profile → EncodeOutcome) (total : Nat)
    (st : RunState) (p : Profile) : RunState :=
  match res p with
  | EncodeOutcome.ok =>
      { st with successful := st.successful ++ [p],
                progress := st.progress ++ [(st.successful.length + 1, total)] }
  | EncodeOutcome.fail =>
      { st with failedCount := st.failedCount + 1,
                progress := st.progress ++ [(st.successful.length, total)] }
  | EncodeOutcome.exn =>
      { st with failedCount := st.failedCount + 1,
                progress := st.progress ++ [(st.successful.length, total)] }

/-- One band's `as_completed` loop, handling futures in completion order
`co`. -/
def runBand (res : Profile → EncodeOutcome) (total : Nat)
    (co : List Profile) (st : RunState) : RunState :=
  co.foldl (processFuture res total) st

/-- The band-sequential core of `process_video` (`transcode.py` 294-371).
`skipStd` and `skipPrem` are the values `should_skip_variant` returns at the
two checks (lines 328 and 349); `coC`, `coS`, `coP` are the completion
orders of the three bands.  The critical band runs whenever it is non-empty
(line 302); the standard band runs when non-empty and not skipped
(line 328); the premium band likewise (line 349). -/
def process_video_core (w h : Nat) (skipStd skipPrem : Bool)
    (res : Profile → EncodeOutcome) (coC coS coP : List Profile) : RunState :=
  let aps := applicable_profiles w h
  let st1 := if critical_profiles aps ≠ [] then
      runBand res aps.length coC initState else initState
  let st2 := if standard_profiles aps ≠ [] ∧ skipStd = false then
      runBand res aps.length coS st1 else st1
  let st3 := if premium_profiles aps ≠ [] ∧ skipPrem = false then
      runBand res aps.length coP st2 else st2
  st3

/-- The spec's overall-outcome space.  `mixedSuccess` stands for the spec's
PartialSuccess outcome (some but not all variants succeeded). -/
inductive Overall where
  | success
  | mixedSuccess
  | failure
deriving DecidableEq

/-- The job outcome the code computes (`transcode.py` 373-376 with the
handler at 405-424): `len(successful_profiles) == 0` raises, which the
handler turns into an error response; otherwise the handler reports
success. -/
def jobOutcome (st : RunState) : Overall :=
  if st.successful.length = 0 then Overall.failure else Overall.success

/-- Profiles in a skipped band are dropped without any record; this counts
them. -/
def skipped_profile_count (aps : List Profile) (skipStd skipPrem : Bool) : Nat :=
  (if skipStd then (standard_profiles aps).length else 0) +
    (if skipPrem then (premium_profiles aps).length else 0)

/-- Orchestrator events: a profile's work is submitted to the pool, or its
completion is handled by the band loop. -/
inductive Ev where
  | dispatch (p : Profile)
  | complete (p : Profile)
deriving DecidableEq

/-- One band's events: all submissions (the futures dict comprehension)
precede all completion handling (the `as_completed` loop). -/
def bandEvents (band co : List Profile) : List Ev :=
  band.map Ev.dispatch ++ co.map Ev.complete

/-- The orchestrator's event order implied by the sequential structure of
`process_video`: the critical band's loop runs to completion before the
standard band is submitted, and likewise for premium after standard.  A
skipped band contributes no events. -/
def jobTrace (w h : Nat) (skipStd skipPrem : Bool)
    (coC coS coP : List Profile) : List Ev :=
  bandEvents (critical_profiles (applicable_profiles w h)) coC ++
    ((if skipStd then [] else
        bandEvents (standard_profiles (applicable_profiles w h)) coS) ++
      (if skipPrem then [] else
        bandEvents (premium_profiles (applicable_profiles w h)) coP))

/-- `future.result(timeout=timeoutS)` once `remainingS` seconds of encoding
remain: it raises `TimeoutError` (`none`) only if the future is still
running when the timeout elapses. -/
def futureResult (timeoutS remainingS : Nat) (value : Bool) : Option Bool :=
  if remainingS ≤ timeoutS then some value else none

/-- How the loop records one future yielded by `as_completed`
(`transcode.py` 314-325).  `as_completed` is called with no timeout, so it
yields a future only once the future has completed: at the
`future.result(timeout=600)` call no encoding time remains. -/
inductive RecordedOutcome where
  | succeeded
  | failed
deriving DecidableEq

def handleCompletedFuture (value : Bool) : RecordedOutcome :=
  match futureResult 600 0 value with
  | some true => RecordedOutcome.succeeded
  | some false => RecordedOutcome.failed
  | none => RecordedOutcome.failed

/-- How long the collection loop blocks for a band: `as_completed` has no
timeout, so the loop ends only when every future has completed. -/
def bandWaitTime (durations : List Nat) : Nat :=
  durations.foldr max 0

/-- The environment default for `MAX_PARALLEL_JOBS` (`transcode.py` 20). -/
def MAX_PARALLEL_JOBS_default : Nat := 4

/-- The state of `memory_semaphore`: remaining permits, and the set of
workers currently inside `with memory_semaphore` (executing
`generate_variant`). -/
structure SemState where
  permits : Nat
  running : Finset Nat
deriving DecidableEq

/-- The semaphore protocol of `generate_variant_with_resource_management`
(`transcode.py` 88-91): entering the `with` block acquires a permit (blocking
while none remain), leaving it releases the permit. -/
inductive SemStep : SemState → SemState → Prop
  | acquire (s : SemState) (w : Nat) (hp : 0 < s.permits) (hw : w ∉ s.running) :
      SemStep s ⟨s.permits - 1, insert w s.running⟩
  | release (s : SemState) (w : Nat) (hw : w ∈ s.running) :
      SemStep s ⟨s.permits + 1, s.running.erase w⟩

/-- States reachable from `Semaphore(maxJobs)` with no worker inside. -/
inductive SemReachable (maxJobs : Nat) : SemState → Prop
  | init : SemReachable maxJobs ⟨maxJobs, ∅⟩
  | step {s t : SemState} : SemReachable maxJobs s → SemStep s t →
      SemReachable maxJobs t

/-- Encode results where every variant succeeds. -/
def allOk : Profile → EncodeOutcome := fun _ => EncodeOutcome.ok

/-- Encode results where only the 144p variant succeeds. -/
def only144Ok : Profile → EncodeOutcome := fun p =>
  if p.name = "144p" then EncodeOutcome.ok else EncodeOutcome.fail

/-- The degradation state after the emergency callback has fired. -/
def dsEmergency : MMState := ⟨false, false, false, true⟩

theorem ladder_min_dimensions :
    ∀ p ∈ QUALITY_PROFILES, 256 ≤ p.width ∧ 144 ≤ p.height := by
  decide

/-- C4: for every source dimensions, profile selection returns exactly the
profiles of the fixed 11-profile ladder fitting within the source,
preserving ladder order, and is empty exactly when the source is smaller
than the smallest (144p, 256x144) profile in some dimension. -/
theorem c4_profile_selection (w h : Nat) :
    (applicable_profiles w h).Sublist QUALITY_PROFILES ∧
    (∀ p, p ∈ applicable_profiles w h ↔
        p ∈ QUALITY_PROFILES ∧ p.width ≤ w ∧ p.height ≤ h) ∧
    (applicable_profiles w h = [] ↔ w < 256 ∨ h < 144) ∧
    QUALITY_PROFILES.length = 11 := by
  refine ⟨List.filter_sublist _, fun p => ?_, ?_, rfl⟩
  · simp [applicable_profiles, List.mem_filter, and_assoc]
  · constructor
    · intro hnil
      by_contra hsz
      push_neg at hsz
      have h144 : p144 ∈ applicable_profiles w h := by
        rw [applicable_profiles, List.mem_filter]
        refine ⟨by simp [QUALITY_PROFILES], ?_⟩
        simp [p144]
        omega
      rw [hnil] at h144
      exact (List.not_mem_nil _) h144
    · intro hsmall
      rw [applicable_profiles, List.filter_eq_nil_iff]
      intro p hp
      have := ladder_min_dimensions p hp
      simp only [Bool.and_eq_true, decide_eq_true_eq, not_and]
      intro hw
      omega

/-- C2: the skip decision is a pure function of
(emergencyMode, qualityReduced, band): under emergency every band but
Critical is skipped; otherwise under qualityReduced exactly Premium is
skipped; otherwise nothing is skipped.  The second conjunct states that the
decision depends on no state beyond those two flags. -/
theorem c2_should_skip_pure_function :
    (∀ (s : MMState) (g : PriorityGroup),
        should_skip_variant s g = true ↔
          (s.emergencyMode = true ∧ g ≠ PriorityGroup.critical) ∨
            (s.emergencyMode = false ∧ s.qualityReduced = true ∧
              g = PriorityGroup.premium)) ∧
    (∀ (s t : MMState) (g : PriorityGroup),
        s.emergencyMode = t.emergencyMode → s.qualityReduced = t.qualityReduced →
        should_skip_variant s g = should_skip_variant t g) := by
  constructor
  · rintro ⟨wt, ct, q, e⟩ g
    cases e <;> cases q <;> cases g <;> simp [should_skip_variant]
  · intro s t g he hq
    unfold should_skip_variant
    rw [he, hq]

theorem check_thresholds_warning_not_refired (s : MMState) (p : ℚ)
    (h : s.warningTriggered = true) :
    ((check_thresholds s p).2).warning = false := by
  unfold check_thresholds
  split_ifs <;> simp_all [noFires]

theorem check_thresholds_critical_not_refired (s : MMState) (p : ℚ)
    (h : s.criticalTriggered = true) :
    ((check_thresholds s p).2).critical = false := by
  unfold check_thresholds
  split_ifs <;> simp_all [noFires]

theorem check_thresholds_warning_trig_preserved (s : MMState) (p : ℚ)
    (h : s.warningTriggered = true) (hp : warning_percent ≤ p) :
    ((check_thresholds s p).1).warningTriggered = true := by
  unfold check_thresholds
  split_ifs <;> simp_all

theorem check_thresholds_critical_trig_preserved (s : MMState) (p : ℚ)
    (h : s.criticalTriggered = true) (hp : warning_percent ≤ p) :
    ((check_thresholds s p).1).criticalTriggered = true := by
  unfold check_thresholds
  split_ifs <;> simp_all

theorem check_thresholds_warning_sets_trig (s : MMState) (p : ℚ)
    (h : ((check_thresholds s p).2).warning = true) :
    ((check_thresholds s p).1).warningTriggered = true := by
  unfold check_thresholds at h ⊢
  split_ifs at h ⊢ <;> simp_all [noFires]

theorem check_thresholds_critical_sets_trig (s : MMState) (p : ℚ)
    (h : ((check_thresholds s p).2).critical = true) :
    ((check_thresholds s p).1).criticalTriggered = true := by
  unfold check_thresholds at h ⊢
  split_ifs at h ⊢ <;> simp_all [noFires]

theorem check_thresholds_emergency_iff (s : MMState) (p : ℚ) :
    ((check_thresholds s p).2).emergency = true ↔ emergency_percent ≤ p := by
  unfold check_thresholds
  split_ifs <;> simp_all [noFires]

theorem runMonitor_warning_no_refire (ps : List ℚ) :
    ∀ (s : MMState), s.warningTriggered = true → ∀ j,
      ((runMonitor s ps).getD j noFires).warning = true →
      ∃ k, k < j ∧ ps.getD k 0 < warning_percent := by
  induction ps with
  | nil => intro s _ j hj; simp [runMonitor, List.getD, noFires] at hj
  | cons p ps ih =>
    intro s hs j hj
    rw [runMonitor] at hj
    match j with
    | 0 =>
      rw [List.getD_cons_zero] at hj
      rw [check_thresholds_warning_not_refired s p hs] at hj
      exact absurd hj (by simp)
    | j + 1 =>
      rw [List.getD_cons_succ] at hj
      by_cases hp : warning_percent ≤ p
      · obtain ⟨k, hk, hlt⟩ :=
          ih _ (check_thresholds_warning_trig_preserved s p hs hp) j hj
        exact ⟨k + 1, by omega, by rwa [List.getD_cons_succ]⟩
      · exact ⟨0, by omega, by rw [List.getD_cons_zero]; exact lt_of_not_le hp⟩

theorem runMonitor_critical_no_refire (ps : List ℚ) :
    ∀ (s : MMState), s.criticalTriggered = true → ∀ j,
      ((runMonitor s ps).getD j noFires).critical = true →
      ∃ k, k < j ∧ ps.getD k 0 < warning_percent := by
  induction ps with
  | nil => intro s _ j hj; simp [runMonitor, List.getD, noFires] at hj
  | cons p ps ih =>
    intro s hs j hj
    rw [runMonitor] at hj
    match j with
    | 0 =>
      rw [List.getD_cons_zero] at hj
      rw [check_thresholds_critical_not_refired s p hs] at hj
      exact absurd hj (by simp)
    | j + 1 =>
      rw [List.getD_cons_succ] at hj
      by_cases hp : warning_percent ≤ p
      · obtain ⟨k, hk, hlt⟩ :=
          ih _ (check_thresholds_critical_trig_preserved s p hs hp) j hj
        exact ⟨k + 1, by omega, by rwa [List.getD_cons_succ]⟩
      · exact ⟨0, by omega, by rw [List.getD_cons_zero]; exact lt_of_not_le hp⟩

theorem runMonitor_warning_pair (ps : List ℚ) :
    ∀ (s : MMState) (i j : Nat), i < j →
      ((runMonitor s ps).getD i noFires).warning = true →
      ((runMonitor s ps).getD j noFires).warning = true →
      ∃ k, i < k ∧ k < j ∧ ps.getD k 0 < warning_percent := by
  induction ps with
  | nil => intro s i j _ hi _; simp [runMonitor, List.getD, noFires] at hi
  | cons p ps ih =>
    intro s i j hij hi hj
    rw [runMonitor] at hi hj
    match i, j with
    | 0, j + 1 =>
      rw [List.getD_cons_zero] at hi
      rw [List.getD_cons_succ] at hj
      obtain ⟨k, hk, hlt⟩ := runMonitor_warning_no_refire ps _
        (check_thresholds_warning_sets_trig s p hi) j hj
      exact ⟨k + 1, by omega, by omega, by rwa [List.getD_cons_succ]⟩
    | i + 1, j + 1 =>
      rw [List.getD_cons_succ] at hi hj
      obtain ⟨k, hk1, hk2, hlt⟩ := ih _ i j (by omega) hi hj
      exact ⟨k + 1, by omega, by omega, by rwa [List.getD_cons_succ]⟩

theorem runMonitor_critical_pair (ps : List ℚ) :
    ∀ (s : MMState) (i j : Nat), i < j →
      ((runMonitor s ps).getD i noFires).critical = true →
      ((runMonitor s ps).getD j noFires).critical = true →
      ∃ k, i < k ∧ k < j ∧ ps.getD k 0 < warning_percent := by
  induction ps with
  | nil => intro s i j _ hi _; simp [runMonitor, List.getD, noFires] at hi
  | cons p ps ih =>
    intro s i j hij hi hj
    rw [runMonitor] at hi hj
    match i, j with
    | 0, j + 1 =>
      rw [List.getD_cons_zero] at hi
      rw [List.getD_cons_succ] at hj
      obtain ⟨k, hk, hlt⟩ := runMonitor_critical_no_refire ps _
        (check_thresholds_critical_sets_trig s p hi) j hj
      exact ⟨k + 1, by omega, by omega, by rwa [List.getD_cons_succ]⟩
    | i + 1, j + 1 =>
      rw [List.getD_cons_succ] at hi hj
      obtain ⟨k, hk1, hk2, hlt⟩ := ih _ i j (by omega) hi hj
      exact ⟨k + 1, by omega, by omega, by rwa [List.getD_cons_succ]⟩

theorem runMonitor_emergency_every_tick (ps : List ℚ) :
    ∀ (s : MMState) (i : Nat), i < ps.length →
      (((runMonitor s ps).getD i noFires).emergency = true ↔
        emergency_percent ≤ ps.getD i 0) := by
  induction ps with
  | nil => intro s i hi; simp at hi
  | cons p ps ih =>
    intro s i hi
    rw [runMonitor]
    match i with
    | 0 =>
      rw [List.getD_cons_zero, List.getD_cons_zero]
      exact check_thresholds_emergency_iff s p
    | i + 1 =>
      rw [List.getD_cons_succ, List.getD_cons_succ]
      exact ih _ i (by simpa using hi)

/-- C3: over every sampling trace from process start, the warning and
critical callbacks fire at most once per excursion above their thresholds —
between any two firings of the same callback there is a tick on which usage
dropped below the warning threshold (back to Normal, the only point where
the triggers are re-armed) — while the emergency callback fires on exactly
the ticks whose usage meets or exceeds the emergency threshold, with no
de-duplication. -/
theorem c3_edge_triggered_callbacks :
    (∀ (ps : List ℚ) (i j : Nat), i < j →
        ((runMonitor mmInit ps).getD i noFires).warning = true →
        ((runMonitor mmInit ps).getD j noFires).warning = true →
        ∃ k, i < k ∧ k < j ∧ ps.getD k 0 < warning_percent) ∧
    (∀ (ps : List ℚ) (i j : Nat), i < j →
        ((runMonitor mmInit ps).getD i noFires).critical = true →
        ((runMonitor mmInit ps).getD j noFires).critical = true →
        ∃ k, i < k ∧ k < j ∧ ps.getD k 0 < warning_percent) ∧
    (∀ (ps : List ℚ) (i : Nat), i < ps.length →
        (((runMonitor mmInit ps).getD i noFires).emergency = true ↔
          emergency_percent ≤ ps.getD i 0)) :=
  ⟨fun ps i j => runMonitor_warning_pair ps mmInit i j,
   fun ps i j => runMonitor_critical_pair ps mmInit i j,
   fun ps i => runMonitor_emergency_every_tick ps mmInit i⟩

theorem check_thresholds_quality_reduced_sticky (s : MMState) (p : ℚ)
    (h : s.qualityReduced = true) :
    ((check_thresholds s p).1).qualityReduced = true := by
  unfold check_thresholds
  split_ifs <;> simp_all

theorem check_thresholds_emergency_mode_sticky (s : MMState) (p : ℚ)
    (h : s.emergencyMode = true) :
    ((check_thresholds s p).1).emergencyMode = true := by
  unfold check_thresholds
  split_ifs <;> simp_all

theorem mmRun_quality_reduced_sticky (ps : List ℚ) :
    ∀ (s : MMState), s.qualityReduced = true →
      (mmRun s ps).qualityReduced = true := by
  induction ps with
  | nil => intro s hs; exact hs
  | cons p ps ih =>
    intro s hs
    rw [mmRun, List.foldl_cons]
    exact ih _ (check_thresholds_quality_reduced_sticky s p hs)

theorem mmRun_emergency_mode_sticky (ps : List ℚ) :
    ∀ (s : MMState), s.emergencyMode = true →
      (mmRun s ps).emergencyMode = true := by
  induction ps with
  | nil => intro s hs; exact hs
  | cons p ps ih =>
    intro s hs
    rw [mmRun, List.foldl_cons]
    exact ih _ (check_thresholds_emergency_mode_sticky s p hs)

/-- C7: the degradation flags are sticky.  The sampling ticks are the only
operations that write the manager's state (`should_skip_variant` and
`get_status` are read-only), and no tick ever clears `quality_reduced` or
`emergency_mode`: once true they stay true for the rest of the process,
whatever memory pressure later does. -/
theorem c7_sticky_degradation_flags (s : MMState) (ps : List ℚ) :
    (s.qualityReduced = true → (mmRun s ps).qualityReduced = true) ∧
    (s.emergencyMode = true → (mmRun s ps).emergencyMode = true) :=
  ⟨mmRun_quality_reduced_sticky ps s, mmRun_emergency_mode_sticky ps s⟩

theorem band_partition_length (l : List Profile) :
    (critical_profiles l).length + (standard_profiles l).length +
      (premium_profiles l).length = l.length := by
  induction l with
  | nil => rfl
  | cons p t ih =>
    unfold critical_profiles standard_profiles premium_profiles at ih ⊢
    simp only [List.filter_cons]
    split_ifs with h1 h2 h3 <;>
      simp only [Bool.and_eq_true, decide_eq_true_eq, not_and, not_le, not_lt] at * <;>
      simp only [List.length_cons] <;> omega

theorem processFuture_counts (res : Profile → EncodeOutcome) (total : Nat)
    (st : RunState) (p : Profile) :
    (processFuture res total st p).successful.length +
      (processFuture res total st p).failedCount =
      st.successful.length + st.failedCount + 1 := by
  cases hrp : res p <;>
    simp [processFuture, hrp, List.length_append] <;> omega

theorem processFuture_successful_mem (res : Profile → EncodeOutcome)
    (total : Nat) (st : RunState) (p q : Profile)
    (h : q ∈ (processFuture res total st p).successful) :
    q ∈ st.successful ∨ q = p := by
  cases hrp : res p <;> simp [processFuture, hrp] at h <;> tauto

theorem processFuture_progress_mem (res : Profile → EncodeOutcome)
    (total : Nat) (st : RunState) (p : Profile) (e : Nat × Nat)
    (h : e ∈ (processFuture res total st p).progress) :
    e ∈ st.progress ∨ e.2 = total := by
  cases hrp : res p <;> simp [processFuture, hrp] at h <;>
    rcases h with h | h <;> simp [h]

theorem runBand_counts (res : Profile → EncodeOutcome) (total : Nat) :
    ∀ (co : List Profile) (st : RunState),
      (runBand res total co st).successful.length +
        (runBand res total co st).failedCount =
        st.successful.length + st.failedCount + co.length := by
  intro co
  induction co with
  | nil => intro st; simp [runBand]
  | cons p t ih =>
    intro st
    rw [runBand, List.foldl_cons, ← runBand]
    rw [ih (processFuture res total st p)]
    rw [processFuture_counts res total st p]
    simp [List.length_cons]
    omega

theorem runBand_successful_mem (res : Profile → EncodeOutcome) (total : Nat) :
    ∀ (co : List Profile) (st : RunState) (q : Profile),
      q ∈ (runBand res total co st).successful →
      q ∈ st.successful ∨ q ∈ co := by
  intro co
  induction co with
  | nil => intro st q h; rw [runBand] at h; simp [List.foldl_nil] at h; tauto
  | cons p t ih =>
    intro st q h
    rw [runBand, List.foldl_cons, ← runBand] at h
    rcases ih (processFuture res total st p) q h with h' | h'
    · rcases processFuture_successful_mem res total st p q h' with h'' | h''
      · exact Or.inl h''
      · exact Or.inr (by simp [h''])
    · exact Or.inr (by simp [h'])

theorem runBand_progress_mem (res : Profile → EncodeOutcome) (total : Nat) :
    ∀ (co : List Profile) (st : RunState) (e : Nat × Nat),
      e ∈ (runBand res total co st).progress →
      e ∈ st.progress ∨ (e.2 = total ∧ co ≠ []) := by
  intro co
  induction co with
  | nil => intro st e h; rw [runBand] at h; simp [List.foldl_nil] at h; tauto
  | cons p t ih =>
    intro st e h
    rw [runBand, List.foldl_cons, ← runBand] at h
    rcases ih (processFuture res total st p) e h with h' | h'
    · rcases processFuture_progress_mem res total st p e h' with h'' | h''
      · exact Or.inl h''
      · exact Or.inr ⟨h'', by simp⟩
    · exact Or.inr ⟨h'.1, by simp⟩

theorem guarded_runBand_counts (c : Prop) [Decidable c]
    (res : Profile → EncodeOutcome) (total : Nat) (co : List Profile)
    (st : RunState) :
    (if c then runBand res total co st else st).successful.length +
      (if c then runBand res total co st else st).failedCount =
      st.successful.length + st.failedCount + (if c then co.length else 0) := by
  split_ifs with h
  · exact runBand_counts res total co st
  · omega

theorem guarded_runBand_successful_mem (c : Prop) [Decidable c]
    (res : Profile → EncodeOutcome) (total : Nat) (co : List Profile)
    (st : RunState) (q : Profile)
    (h : q ∈ (if c then runBand res total co st else st).successful) :
    q ∈ st.successful ∨ q ∈ co := by
  split_ifs at h with hc
  · exact runBand_successful_mem res total co st q h
  · exact Or.inl h

theorem guarded_runBand_progress_mem (c : Prop) [Decidable c]
    (res : Profile → EncodeOutcome) (total : Nat) (co : List Profile)
    (st : RunState) (e : Nat × Nat)
    (h : e ∈ (if c then runBand res total co st else st).progress) :
    e ∈ st.progress ∨ (e.2 = total ∧ co ≠ []) := by
  split_ifs at h with hc
  · exact runBand_progress_mem res total co st e h
  · exact Or.inl h

/-- C1 (amended): the aggregation at `transcode.py` 373-376 / 405-424 is
two-valued — Failure exactly when the succeeded count is zero, Success
exactly when it is positive; the code never yields a PartialSuccess
outcome, even when some eligible variants failed or were skipped. -/
theorem c1_outcome_two_valued (w h : Nat) (skipStd skipPrem : Bool)
    (res : Profile → EncodeOutcome) (coC coS coP : List Profile)
    (hne : applicable_profiles w h ≠ []) :
    (jobOutcome (process_video_core w h skipStd skipPrem res coC coS coP) =
        Overall.failure ↔
      (process_video_core w h skipStd skipPrem res coC coS coP).successful.length = 0) ∧
    (jobOutcome (process_video_core w h skipStd skipPrem res coC coS coP) =
        Overall.success ↔
      0 < (process_video_core w h skipStd skipPrem res coC coS coP).successful.length) ∧
    jobOutcome (process_video_core w h skipStd skipPrem res coC coS coP) ≠
      Overall.mixedSuccess := by
  unfold jobOutcome
  split_ifs with h0 <;> refine ⟨?_, ?_, ?_⟩ <;> simp_all [List.length_pos]

/-- C1 counterexample: source 426x240 has two eligible profiles (144p and
240p); the 144p encode succeeds and the 240p encode fails.  The code's
outcome is Success although the succeeded count (1) is below the eligible
count (2) — the claimed "Success iff succeeded-count equals eligible-count,
PartialSuccess otherwise" does not hold. -/
theorem c1_counterexample :
    jobOutcome (process_video_core 426 240 false false only144Ok
        [p144, p240] [] []) = Overall.success ∧
    (process_video_core 426 240 false false only144Ok
        [p144, p240] [] []).successful.length = 1 ∧
    (applicable_profiles 426 240).length = 2 := by
  decide

theorem c1_witness :
    jobOutcome (process_video_core 3840 2160 false false allOk
        (critical_profiles (applicable_profiles 3840 2160))
        (standard_profiles (applicable_profiles 3840 2160))
        (premium_profiles (applicable_profiles 3840 2160))) ≠
      Overall.mixedSuccess :=
  (c1_outcome_two_valued 3840 2160 false false allOk
    (critical_profiles (applicable_profiles 3840 2160))
    (standard_profiles (applicable_profiles 3840 2160))
    (premium_profiles (applicable_profiles 3840 2160))
    (by decide)).2.2

/-- C5 (amended): the code keeps no per-profile report.  Its run record is
the `successful_profiles` list plus the bare counter `failed_count`; every
originally-eligible profile is accounted for only at the level of counts —
succeeded plus failed plus band-skipped equals eligible — and every
recorded successful profile is an eligible one.  Profiles of a skipped band
are simply absent: they are not marked `Skipped`. -/
theorem c5_report_is_counts_only (w h : Nat) (skipStd skipPrem : Bool)
    (res : Profile → EncodeOutcome) (coC coS coP : List Profile)
    (hC : coC.Perm (critical_profiles (applicable_profiles w h)))
    (hS : coS.Perm (standard_profiles (applicable_profiles w h)))
    (hP : coP.Perm (premium_profiles (applicable_profiles w h))) :
    (process_video_core w h skipStd skipPrem res coC coS coP).successful.length +
        (process_video_core w h skipStd skipPrem res coC coS coP).failedCount +
        skipped_profile_count (applicable_profiles w h) skipStd skipPrem =
      (applicable_profiles w h).length ∧
    (∀ q ∈ (process_video_core w h skipStd skipPrem res coC coS coP).successful,
      q ∈ applicable_profiles w h) := by
  have hlC := hC.length_eq
  have hlS := hS.length_eq
  have hlP := hP.length_eq
  have hpart := band_partition_length (applicable_profiles w h)
  constructor
  · simp only [process_video_core]
    rw [guarded_runBand_counts, guarded_runBand_counts, guarded_runBand_counts]
    unfold skipped_profile_count
    simp only [initState, List.length_nil]
    split_ifs <;> simp_all <;> omega
  · intro q hq
    simp only [process_video_core] at hq
    rcases guarded_runBand_successful_mem _ res _ coP _ q hq with hq | hq
    · rcases guarded_runBand_successful_mem _ res _ coS _ q hq with hq | hq
      · rcases guarded_runBand_successful_mem _ res _ coC _ q hq with hq | hq
        · simp [initState] at hq
        · exact List.mem_of_mem_filter (hC.subset hq)
      · exact List.mem_of_mem_filter (hS.subset hq)
    · exact List.mem_of_mem_filter (hP.subset hq)

/-- C5 counterexample: source 1920x1080 under emergency mode.  The standard
band (five eligible profiles, among them 720p) is skipped by admission
control and every attempted encode succeeds; the run record ends with four
successful profiles and `failed_count = 0`.  The eligible profile 720p
appears nowhere: it is neither in the successful list nor counted as
failed, and the record has no `Skipped` marking at all — the claimed
per-profile enumeration with a distinguishable `Skipped` outcome does not
exist. -/
theorem c5_counterexample :
    p720 ∈ applicable_profiles 1920 1080 ∧
    p720 ∉ (process_video_core 1920 1080
        (should_skip_variant dsEmergency PriorityGroup.standard)
        (should_skip_variant dsEmergency PriorityGroup.premium) allOk
        (critical_profiles (applicable_profiles 1920 1080))
        (standard_profiles (applicable_profiles 1920 1080))
        (premium_profiles (applicable_profiles 1920 1080))).successful ∧
    (process_video_core 1920 1080
        (should_skip_variant dsEmergency PriorityGroup.standard)
        (should_skip_variant dsEmergency PriorityGroup.premium) allOk
        (critical_profiles (applicable_profiles 1920 1080))
        (standard_profiles (applicable_profiles 1920 1080))
        (premium_profiles (applicable_profiles 1920 1080))).failedCount = 0 ∧
    (process_video_core 1920 1080
        (should_skip_variant dsEmergency PriorityGroup.standard)
        (should_skip_variant dsEmergency PriorityGroup.premium) allOk
        (critical_profiles (applicable_profiles 1920 1080))
        (standard_profiles (applicable_profiles 1920 1080))
        (premium_profiles (applicable_profiles 1920 1080))).successful.length = 4 := by
  decide

theorem c5_witness :
    (process_video_core 1920 1080 true true allOk
        (critical_profiles (applicable_profiles 1920 1080))
        (standard_profiles (applicable_profiles 1920 1080))
        (premium_profiles (applicable_profiles 1920 1080))).successful.length +
        (process_video_core 1920 1080 true true allOk
          (critical_profiles (applicable_profiles 1920 1080))
          (standard_profiles (applicable_profiles 1920 1080))
          (premium_profiles (applicable_profiles 1920 1080))).failedCount +
        skipped_profile_count (applicable_profiles 1920 1080) true true =
      (applicable_profiles 1920 1080).length :=
  (c5_report_is_counts_only 1920 1080 true true allOk
    (critical_profiles (applicable_profiles 1920 1080))
    (standard_profiles (applicable_profiles 1920 1080))
    (premium_profiles (applicable_profiles 1920 1080))
    (List.Perm.refl _) (List.Perm.refl _) (List.Perm.refl _)).1

/-- C10: every `update_processing_status` call the orchestration makes
passes a total of `len(applicable_profiles)` and is made only from a band
completion loop, which runs only when that band — hence the eligible list —
is non-empty; so the total is at least 1 and `completed / total` inside
`update_processing_status` never divides by zero on these paths. -/
theorem c10_progress_total_positive (w h : Nat) (skipStd skipPrem : Bool)
    (res : Profile → EncodeOutcome) (coC coS coP : List Profile)
    (hC : coC.Perm (critical_profiles (applicable_profiles w h)))
    (hS : coS.Perm (standard_profiles (applicable_profiles w h)))
    (hP : coP.Perm (premium_profiles (applicable_profiles w h))) :
    ∀ e ∈ (process_video_core w h skipStd skipPrem res coC coS coP).progress,
      1 ≤ e.2 := by
  have key : ∀ (f : Profile → Bool) (co : List Profile),
      co.Perm ((applicable_profiles w h).filter f) → co ≠ [] →
      1 ≤ (applicable_profiles w h).length := by
    intro f co hperm hco
    by_contra hlt
    have haps : applicable_profiles w h = [] := by
      cases hq : applicable_profiles w h with
      | nil => rfl
      | cons a t => rw [hq] at hlt; simp [List.length_cons] at hlt
    rw [haps] at hperm
    exact hco (List.Perm.eq_nil (by simpa using hperm))
  intro e he
  simp only [process_video_core] at he
  rcases guarded_runBand_progress_mem _ res _ coP _ e he with he | ⟨he2, hco⟩
  · rcases guarded_runBand_progress_mem _ res _ coS _ e he with he | ⟨he2, hco⟩
    · rcases guarded_runBand_progress_mem _ res _ coC _ e he with he | ⟨he2, hco⟩
      · simp [initState] at he
      · rw [he2]; exact key _ coC hC hco
    · rw [he2]; exact key _ coS hS hco
  · rw [he2]; exact key _ coP hP hco

theorem c10_witness : 1 ≤ ((1, 2) : Nat × Nat).2 :=
  c10_progress_total_positive 426 240 false false only144Ok
    (critical_profiles (applicable_profiles 426 240))
    (standard_profiles (applicable_profiles 426 240))
    (premium_profiles (applicable_profiles 426 240))
    (List.Perm.refl _) (List.Perm.refl _) (List.Perm.refl _)
    (1, 2) (by decide)

/-- C6 evidence: the 600-second bound is dead code.  `as_completed` is
invoked with no timeout, so the loop's wait for a band equals the longest
encode duration — for a single 1000-second encode the orchestrator waits
the full 1000 s, beyond the claimed 600 s bound — and by the time
`future.result(timeout=600)` runs the future is already complete
(`futureResult 600 0`), so a `TimeoutError` can never be raised and an
over-long encode is recorded by its eventual result (here: Succeeded), not
converted to Failed. -/
theorem c6_timeout_never_fires :
    bandWaitTime [1000] = 1000 ∧ 600 < bandWaitTime [1000] ∧
    (∀ v : Bool, futureResult 600 0 v = some v) ∧
    handleCompletedFuture true = RecordedOutcome.succeeded := by
  refine ⟨rfl, by decide, fun v => rfl, rfl⟩

theorem semReachable_invariant (m : Nat) :
    ∀ s : SemState, SemReachable m s → s.permits + s.running.card = m := by
  intro s hr
  induction hr with
  | init => simp
  | step hr hstep ih =>
    cases hstep with
    | acquire w hp hw =>
      simp only [Finset.card_insert_of_not_mem hw]
      omega
    | release w hw =>
      simp only [Finset.card_erase_of_mem hw]
      have := Finset.card_pos.mpr ⟨w, hw⟩
      omega

/-- C9: in every reachable state of the shared admission gate, at most
`maxJobs` (`MAX_PARALLEL_JOBS`) workers are inside `with memory_semaphore`
— i.e. at most that many encode invocations run simultaneously, across all
bands and all concurrently active jobs — and when that ceiling is reached
the semaphore has no permits left, so a newly dispatched encode blocks on
the gate until a slot frees. -/
theorem c9_concurrency_bounded (maxJobs : Nat) (s : SemState)
    (hr : SemReachable maxJobs s) :
    s.running.card ≤ maxJobs ∧ (s.running.card = maxJobs → s.permits = 0) := by
  have hinv := semReachable_invariant maxJobs s hr
  omega

theorem c9_witness :
    (⟨MAX_PARALLEL_JOBS_default, ∅⟩ : SemState).running.card ≤
        MAX_PARALLEL_JOBS_default ∧
      ((⟨MAX_PARALLEL_JOBS_default, ∅⟩ : SemState).running.card =
          MAX_PARALLEL_JOBS_default →
        (⟨MAX_PARALLEL_JOBS_default, ∅⟩ : SemState).permits = 0) :=
  c9_concurrency_bounded MAX_PARALLEL_JOBS_default
    ⟨MAX_PARALLEL_JOBS_default, ∅⟩ SemReachable.init

theorem length_le_of_getElem?_notleft {α : Type _} {A B : List α} {i : Nat}
    {x : α} (h : (A ++ B)[i]? = some x) (hx : x ∉ A) : A.length ≤ i := by
  by_contra hlt
  push_neg at hlt
  rw [List.getElem?_append, if_pos hlt] at h
  exact hx (List.getElem?_mem h)

theorem lt_length_of_getElem?_notright {α : Type _} {A B : List α} {j : Nat}
    {x : α} (h : (A ++ B)[j]? = some x) (hx : x ∉ B) : j < A.length := by
  by_contra hge
  push_neg at hge
  rw [List.getElem?_append, if_neg (by omega)] at h
  exact hx (List.getElem?_mem h)

theorem mem_bandEvents_dispatch {band co : List Profile} {p : Profile}
    (h : Ev.dispatch p ∈ bandEvents band co) : p ∈ band := by
  unfold bandEvents at h
  rcases List.mem_append.mp h with hm | hm
  · obtain ⟨q, hq, he⟩ := List.mem_map.mp hm
    cases he
    exact hq
  · obtain ⟨q, hq, he⟩ := List.mem_map.mp hm
    cases he

theorem mem_bandEvents_complete {band co : List Profile} {p : Profile}
    (h : Ev.complete p ∈ bandEvents band co) : p ∈ co := by
  unfold bandEvents at h
  rcases List.mem_append.mp h with hm | hm
  · obtain ⟨q, hq, he⟩ := List.mem_map.mp hm
    cases he
  · obtain ⟨q, hq, he⟩ := List.mem_map.mp hm
    cases he
    exact hq

theorem height_mem_critical {l : List Profile} {p : Profile}
    (h : p ∈ critical_profiles l) : p.height ≤ 480 := by
  unfold critical_profiles at h
  have := (List.mem_filter.mp h).2
  simpa using this

theorem height_mem_standard {l : List Profile} {p : Profile}
    (h : p ∈ standard_profiles l) : 480 < p.height ∧ p.height ≤ 1080 := by
  unfold standard_profiles at h
  have := (List.mem_filter.mp h).2
  simpa using this

theorem height_mem_premium {l : List Profile} {p : Profile}
    (h : p ∈ premium_profiles l) : 1080 < p.height := by
  unfold premium_profiles at h
  have := (List.mem_filter.mp h).2
  simpa using this

/-- C8: in the orchestrator's event order, every dispatch of a
Standard-band profile comes strictly after every completion of a
Critical-band profile, and every dispatch of a Premium-band profile comes
strictly after every completion of a Critical- or Standard-band profile:
no later band's encode starts before every earlier band's encode has been
run to a terminal state. -/
theorem c8_strict_band_ordering (w h : Nat) (skipStd skipPrem : Bool)
    (coC coS coP : List Profile)
    (hC : coC.Perm (critical_profiles (applicable_profiles w h)))
    (hS : coS.Perm (standard_profiles (applicable_profiles w h)))
    (hP : coP.Perm (premium_profiles (applicable_profiles w h))) :
    (∀ (i j : Nat) (p q : Profile),
        (jobTrace w h skipStd skipPrem coC coS coP)[i]? = some (Ev.dispatch p) →
        480 < p.height → p.height ≤ 1080 →
        (jobTrace w h skipStd skipPrem coC coS coP)[j]? = some (Ev.complete q) →
        q.height ≤ 480 → j < i) ∧
    (∀ (i j : Nat) (p q : Profile),
        (jobTrace w h skipStd skipPrem coC coS coP)[i]? = some (Ev.dispatch p) →
        1080 < p.height →
        (jobTrace w h skipStd skipPrem coC coS coP)[j]? = some (Ev.complete q) →
        q.height ≤ 1080 → j < i) := by
  constructor
  · intro i j p q hi hp1 hp2 hj hq
    unfold jobTrace at hi hj
    have hiA : (bandEvents (critical_profiles (applicable_profiles w h)) coC).length ≤ i := by
      refine length_le_of_getElem?_notleft hi fun hmem => ?_
      have := height_mem_critical (mem_bandEvents_dispatch hmem)
      omega
    have hjA : j < (bandEvents (critical_profiles (applicable_profiles w h)) coC).length := by
      refine lt_length_of_getElem?_notright hj fun hmem => ?_
      rcases List.mem_append.mp hmem with hm | hm
      · cases skipStd with
        | true =>
          rw [if_pos rfl] at hm
          exact (List.not_mem_nil _) hm
        | false =>
          rw [if_neg (by decide)] at hm
          have := (height_mem_standard (hS.subset (mem_bandEvents_complete hm))).1
          omega
      · cases skipPrem with
        | true =>
          rw [if_pos rfl] at hm
          exact (List.not_mem_nil _) hm
        | false =>
          rw [if_neg (by decide)] at hm
          have := height_mem_premium (hP.subset (mem_bandEvents_complete hm))
          omega
    omega
  · intro i j p q hi hp1 hj hq
    unfold jobTrace at hi hj
    rw [← List.append_assoc] at hi hj
    have hiA : (bandEvents (critical_profiles (applicable_profiles w h)) coC ++
        (if skipStd then [] else
          bandEvents (standard_profiles (applicable_profiles w h)) coS)).length ≤ i := by
      refine length_le_of_getElem?_notleft hi fun hmem => ?_
      rcases List.mem_append.mp hmem with hm | hm
      · have := height_mem_critical (mem_bandEvents_dispatch hm)
        omega
      · cases skipStd with
        | true =>
          rw [if_pos rfl] at hm
          exact (List.not_mem_nil _) hm
        | false =>
          rw [if_neg (by decide)] at hm
          have := (height_mem_standard (mem_bandEvents_dispatch hm)).2
          omega
    have hjA : j < (bandEvents (critical_profiles (applicable_profiles w h)) coC ++
        (if skipStd then [] else
          bandEvents (standard_profiles (applicable_profiles w h)) coS)).length := by
      refine lt_length_of_getElem?_notright hj fun hmem => ?_
      cases skipPrem with
      | true =>
        rw [if_pos rfl] at hmem
        exact (List.not_mem_nil _) hmem
      | false =>
        rw [if_neg (by decide)] at hmem
        have := height_mem_premium (hP.subset (mem_bandEvents_complete hmem))
        omega
    omega

theorem c8_witness : (4 : Nat) < 8 :=
  (c8_strict_band_ordering 1920 1080 false false
      (critical_profiles (applicable_profiles 1920 1080))
      (standard_profiles (applicable_profiles 1920 1080))
      (premium_profiles (applicable_profiles 1920 1080))
      (List.Perm.refl _) (List.Perm.refl _) (List.Perm.refl _)).1
    8 4 p540 p144 (by decide) (by decide) (by decide) (by decide) (by decide)
